import Mathlib

set_option maxRecDepth 8000

namespace AIVisibility

/-!
Shallow embedding of the response-analysis pipeline of the AI visibility
tracker: brand-mention extraction and citation handling
(`src/unnamed/part_001`, the visibility service), citation extraction and
provider dispatch (`src/unnamed/part_003`, the AI provider service), prompt
templates (`src/lib/ai/prompt-templates.ts`), the check-visibility route
(`src/unnamed/part_006`), the visibility-score metric
(`src/lib/db/models.ts`, `calculateVisibilityScore`), and the mention upsert
of both persistence variants (`src/lib/db/models.ts`,
`src/lib/db/supabase-models.ts`).

Strings are modelled as `List Char` where character-level scanning is
needed, with `String` wrappers at the API boundary.
-/

/-- JS regex word-character class `\w` = `[A-Za-z0-9_]` (ASCII). -/
def isWordChar (c : Char) : Bool :=
  c.isAlpha || c.isDigit || c = '_'

/-- JS whitespace class `\s` (ASCII part; the analysed texts are ASCII). -/
def isSpaceJS (c : Char) : Bool :=
  c = ' ' || c = '\t' || c = '\n' || c = '\r' || c = '\x0b' || c = '\x0c'

/-- JS `String.prototype.toLowerCase` on a character list. -/
def lowerL (s : List Char) : List Char :=
  s.map Char.toLower

/-- JS `String.prototype.trim` (ASCII whitespace). -/
def trimJS (s : List Char) : List Char :=
  ((s.dropWhile isSpaceJS).reverse.dropWhile isSpaceJS).reverse

/-- Does `hay` start with `needle`? (JS `String.prototype.startsWith`.) -/
def startsWithL : List Char → List Char → Bool
  | _, [] => true
  | [], _ :: _ => false
  | c :: cs, d :: ds => c = d && startsWithL cs ds

/-- JS `String.prototype.includes`: substring containment. -/
def containsSub : List Char → List Char → Bool
  | [], needle => startsWithL [] needle
  | c :: cs, needle => startsWithL (c :: cs) needle || containsSub cs needle

/-!
### The brand-match regex of `extractBrandMentions`

`visibility-service` builds `new RegExp('\\b' + brand.toLowerCase() + '\\b', 'gi')`
from the RAW lowercased brand name (no escaping), and counts its matches in
the full text.  The pattern fragment exercised here is compiled faithfully:
every ordinary character becomes a literal, and `.` keeps its regex meaning
"any character but a line terminator" because the source does not escape the
brand before interpolation.
-/

/-- One compiled token of the brand pattern. -/
inductive RTok where
  | lit (c : Char)
  | any
deriving DecidableEq, Repr

/-- Compile the (already lowercased) brand name exactly as `new RegExp`
reads the interpolated text: `.` is the wildcard metacharacter and every
other character outside `regexMetaChar` is a literal.  The model covers
exactly this fragment: for brands containing further metacharacters the
source's constructor can itself throw (for example the dangling quantifier
of "C++"), a failure this total compilation does not represent, so
theorems quantifying over brand lists restrict to `regexSafeBrand`
brands. -/
def brandTokens (brandLower : List Char) : List RTok :=
  brandLower.map (fun c => if c = '.' then RTok.any else RTok.lit c)

/-- The constructor-syntax metacharacters other than the dot: a character
that, unescaped, does not stand for itself inside the interpolated
pattern (and can make the constructor throw, as the quantifiers do for
"C++"). -/
def regexMetaChar (c : Char) : Bool :=
  c = '\\' || c = '^' || c = '$' || c = '*' || c = '+' || c = '?' ||
    c = '(' || c = ')' || c = '[' || c = ']' || c = '\x7b' || c = '\x7d' || c = '|'

/-- A brand inside the faithfully modelled pattern fragment: every
character of its lowercasing is a plain literal or the dot wildcard, so
the source's `new RegExp` call is guaranteed to succeed and to mean what
`brandTokens` says. -/
def regexSafeBrand (b : String) : Bool :=
  (lowerL b.data).all (fun c => !(regexMetaChar c))

/-- Case-insensitive token match (the source passes the `i` flag). -/
def tokMatches (t : RTok) (c : Char) : Bool :=
  match t with
  | RTok.lit l => c.toLower = l
  | RTok.any => !(c = '\n' || c = '\r')

/-- Word-boundary test `\b` between two characters (`none` = text edge). -/
def isBoundary (prev next : Option Char) : Bool :=
  (match prev with | none => false | some c => isWordChar c) !=
  (match next with | none => false | some c => isWordChar c)

/-- Match the token list at the head of the text; on success returns the last
matched character (for the trailing boundary test) and the rest. -/
def matchToks : List RTok → Option Char → List Char → Option (Option Char × List Char)
  | [], last, rest => some (last, rest)
  | _ :: _, _, [] => none
  | t :: ts, _, c :: cs => if tokMatches t c then matchToks ts (some c) cs else none

/-- Match `\b <tokens> \b` at the current position. -/
def matchBounded (toks : List RTok) (prev : Option Char) (s : List Char) :
    Option (Option Char × List Char) :=
  if isBoundary prev s.head? then
    match matchToks toks prev s with
    | some (last, rest) => if isBoundary last rest.head? then some (last, rest) else none
    | none => none
  else none

/-- Count the non-overlapping matches of the global scan, as
`text.match(regex)` does: try each position left to right, and continue
after the matched span (advancing one position after an empty match, as the
JS engine bumps `lastIndex`).  The fuel argument bounds the scan; every step
consumes at least one character, so `length + 1` always suffices. -/
def countAux : Nat → List RTok → Option Char → List Char → Nat
  | 0, _, _, _ => 0
  | _ + 1, toks, prev, [] =>
    match matchBounded toks prev [] with
    | some _ => 1
    | none => 0
  | fuel + 1, toks, prev, c :: cs =>
    match matchBounded toks prev (c :: cs) with
    | some (last, rest) =>
      if rest.length = (c :: cs).length then 1 + countAux fuel toks (some c) cs
      else 1 + countAux fuel toks last rest
    | none => countAux fuel toks (some c) cs

/-- Number of matches of `new RegExp('\\b' + brandLower + '\\b', 'gi')`
in `text` (`extractBrandMentions`, visibility service lines 46-50). -/
def brandMatchCount (text : List Char) (brandLower : List Char) : Nat :=
  countAux (text.length + 1) (brandTokens brandLower) none text

/-- Sentence separators of `text.split(/[.!?]+/)`. -/
def isSentenceSep (c : Char) : Bool :=
  c = '.' || c = '!' || c = '?'

/-- Split at every sentence separator, keeping empty fragments.  The JS code
splits on the one-or-more regex `/[.!?]+/`; splitting at each single
separator instead only inserts extra empty fragments, and all blank
fragments are removed by the trim filter applied right after, so the
surviving sentence list is identical. -/
def splitSeps : List Char → List (List Char)
  | [] => [[]]
  | c :: cs =>
    match splitSeps cs with
    | [] => [[c]]
    | h :: t => if isSentenceSep c then [] :: h :: t else (c :: h) :: t

/-- `text.split(/[.!?]+/).filter((s) => s.trim().length > 0)`. -/
def sentencesOf (text : List Char) : List (List Char) :=
  (splitSeps text).filter (fun s => 0 < (trimJS s).length)

/-- One entry of the mention analyzer's output (visibility service). -/
structure BrandMention where
  brand : String
  count : Nat
  context : List String
  citationUrls : List String
deriving DecidableEq, Repr

/-- `extractBrandMentions` of the visibility service: one record per brand,
count from the word-boundary regex over the full text, context from the
case-insensitive substring filter over the sentence fragments, citation
URLs initialised empty.  This model is total, whereas the source throws
from the `new RegExp` call for regex-invalid brand names such as "C++"
(nothing is escaped, see `brandTokens`); it is faithful exactly for brand
lists of `regexSafeBrand` brands, and statements over arbitrary brand
lists must carry that restriction. -/
def extractBrandMentions (text : String) (brands : List String) : List BrandMention :=
  let sentences := sentencesOf text.data
  brands.map (fun brand =>
    let brandLower := lowerL brand.data
    { brand := brand
      count := brandMatchCount text.data brandLower
      context := (sentences.filter (fun s => containsSub (lowerL s) brandLower)).map
        (fun s => String.mk (trimJS s))
      citationUrls := [] })

/-!
### Citation extraction (`src/unnamed/part_003`, `extractCitations`)

Phase one scans for markdown links `[label](url)` with the global regex
`\[([^\]]+)\]\(([^)]+)\)` and pushes every captured url (no duplicate
check).  Phase two scans for bare urls with `(https?:\/\/[^\s\)]+)`,
strips one trailing run of sentence punctuation and pushes the url only if
it is not already present (exact string comparison).  Both character
classes are complement classes, so the regexes are deterministic
maximal-munch scanners; the fuel argument bounds each scan and
`length` always suffices because every step consumes at least one
character.
-/

/-- Phase-one scanner: urls of markdown links, in match order, duplicates
kept.  On a failed attempt the scan resumes one character further, as the
JS engine does. -/
def mdScan : Nat → List Char → List (List Char)
  | 0, _ => []
  | _ + 1, [] => []
  | fuel + 1, c :: rest =>
    if c = '[' then
      let label := rest.takeWhile (fun d => !(d = ']'))
      if label.isEmpty then mdScan fuel rest
      else
        match rest.drop label.length with
        | ']' :: '(' :: rest2 =>
          let url := rest2.takeWhile (fun d => !(d = ')'))
          if url.isEmpty then mdScan fuel rest
          else
            match rest2.drop url.length with
            | ')' :: rest3 => url :: mdScan fuel rest3
            | _ => mdScan fuel rest
        | _ => mdScan fuel rest
    else mdScan fuel rest

/-- A character the bare-url run `[^\s\)]+` accepts. -/
def isUrlRunChar (c : Char) : Bool :=
  !(isSpaceJS c) && !(c = ')')

/-- Phase-two scanner: bare `http(s)://` urls in match order (before
punctuation stripping and the duplicate check). -/
def urlScan : Nat → List Char → List (List Char)
  | 0, _ => []
  | _ + 1, [] => []
  | fuel + 1, c :: rest =>
    if startsWithL (c :: rest) ("https://".data) then
      let tail := (c :: rest).drop 8
      let run := tail.takeWhile isUrlRunChar
      if run.isEmpty then urlScan fuel rest
      else ("https://".data ++ run) :: urlScan fuel (tail.drop run.length)
    else if startsWithL (c :: rest) ("http://".data) then
      let tail := (c :: rest).drop 7
      let run := tail.takeWhile isUrlRunChar
      if run.isEmpty then urlScan fuel rest
      else ("http://".data ++ run) :: urlScan fuel (tail.drop run.length)
    else urlScan fuel rest

/-- `url.replace(/[.,;!?]+$/, '')`: drop one maximal trailing run of
sentence punctuation. -/
def stripTrailingPunct (u : List Char) : List Char :=
  (u.reverse.dropWhile (fun c => c = '.' || c = ',' || c = ';' || c = '!' || c = '?')).reverse

/-- The phase-two push loop: append each url unless already present. -/
def dedupAppend (acc : List (List Char)) (us : List (List Char)) : List (List Char) :=
  us.foldl (fun a u => if u ∈ a then a else a ++ [u]) acc

/-- Specification-side description of what the push loop appends after the
already collected urls: the incoming urls in scan order, each skipped when
already present (against the initial collection and the earlier appends),
hence appended at most once.  The amended citation claim compares the
source's fold against this description. -/
def bareExtras (acc : List (List Char)) : List (List Char) → List (List Char)
  | [] => []
  | u :: us => if u ∈ acc then bareExtras acc us else u :: bareExtras (acc ++ [u]) us

/-- `extractCitations` over a character list. -/
def extractCitationsL (text : List Char) : List (List Char) :=
  dedupAppend (mdScan text.length text)
    ((urlScan text.length text).map stripTrailingPunct)

/-- `extractCitations` of the provider service. -/
def extractCitations (text : String) : List String :=
  (extractCitationsL text.data).map String.mk

/-!
### Provider dispatch (`src/unnamed/part_003`) and prompt templates
(`src/lib/ai/prompt-templates.ts`)
-/

/-- `generateVisibilityPrompt`: the instruction string built for every
query dispatch. -/
def generateVisibilityPrompt (category : String) (brands : List String) : String :=
  let brandsList := String.intercalate ", " brands
  "You are a helpful assistant providing recommendations. When asked about "
    ++ category
    ++ ", please provide a comprehensive answer that mentions specific brands and tools when relevant.\n\nQuestion: What are the best options for "
    ++ category
    ++ "?\n\nPlease provide:\n1. A detailed answer mentioning specific brands and tools\n2. Include URLs/citations when mentioning brands (format: [brand name](url))\n3. Explain the strengths and use cases for each option\n\nBrands to consider: "
    ++ brandsList
    ++ "\n\nProvide a natural, helpful response as if answering a user\x27s question."

/-- `generateCompetitorPrompt`: same template with the main brand put in
front of the competitor list.  No code path of the repository calls it. -/
def generateCompetitorPrompt (category : String) (mainBrand : String)
    (competitorBrands : List String) : String :=
  let competitorsList := String.intercalate ", " competitorBrands
  "You are a helpful assistant providing recommendations. When asked about "
    ++ category
    ++ ", please provide a comprehensive answer that mentions specific brands and tools when relevant.\n\nQuestion: What are the best options for "
    ++ category
    ++ "?\n\nPlease provide:\n1. A detailed answer mentioning specific brands and tools\n2. Include URLs/citations when mentioning brands (format: [brand name](url))\n3. Explain the strengths and use cases for each option\n\nBrands to consider: "
    ++ mainBrand ++ ", " ++ competitorsList
    ++ "\n\nProvide a natural, helpful response as if answering a user\x27s question."

/-- Normalized provider reply `{text, citations}`. -/
structure AIResponse where
  text : String
  citations : List String
deriving DecidableEq, Repr

/-- A provider backend as seen through an adapter's `query`: from the prompt
to either the raw reply text or a transport error message.  The adapters
normalize a successful raw reply with `extractCitations` before
returning. -/
def ProviderFun := String → Except String String

/-- The registry of configured adapters, keyed by provider name, as built by
the `AIService` constructor from the available credentials (only the three
known names can ever be keys). -/
def ProviderMap := List (String × ProviderFun)

/-- `AIService.queryAI`: look the adapter up by name; when absent, fail with
the provider-unavailable error without touching any backend; otherwise build
the visibility prompt (competitor data never reaches this function) and run
the adapter, normalizing `{text, citations}`. -/
def queryAI (providers : ProviderMap) (provider : String) (category : String)
    (brands : List String) : Except String AIResponse :=
  match providers.lookup provider with
  | none => .error ("Provider " ++ provider
      ++ " is not configured or available. Please check your API keys.")
  | some q =>
    match q (generateVisibilityPrompt category brands) with
    | .error e => .error e
    | .ok text => .ok { text := text, citations := extractCitations text }

/-- The provider names the check-visibility route recognises. -/
def validProviders : List String := ["openai", "anthropic", "groq"]

/-- The route's provider validation (part_006 lines 31-35): a recognised
name is kept, anything else silently becomes the default `"openai"`. -/
def selectProvider (requested : String) : String :=
  if requested ∈ validProviders then requested else "openai"

/-!
### Citation attribution and the analysis entry point
(`src/unnamed/part_001`, `checkVisibility`)
-/

/-- `url.toLowerCase().split('.')[0]`: the part before the first dot. -/
def splitDotHead (s : List Char) : List Char :=
  s.takeWhile (fun c => !(c = '.'))

/-- The brand-specific citation filter of `checkVisibility`: keep urls that
contain the brand name (case-insensitive) or whose leading dot-delimited
token is contained in the brand name. -/
def brandCitationFilter (brand : String) (citations : List String) : List String :=
  let bl := lowerL brand.data
  citations.filter (fun url =>
    containsSub (lowerL url.data) bl ||
      containsSub bl (splitDotHead (lowerL url.data)))

/-- The per-mention citation assignment of `checkVisibility` (lines 94-107):
only mentioned brands get urls; the filtered list, or the first two global
citations when the filter is empty and the global list is not. -/
def attachCitations (citations : List String) (m : BrandMention) : BrandMention :=
  if 0 < m.count then
    let filtered := brandCitationFilter m.brand citations
    let urls := if filtered.isEmpty && !citations.isEmpty then citations.take 2 else filtered
    { m with citationUrls := urls }
  else m

/-- The storage collaborator of `checkVisibility`: the three write
operations used inside the try/catch block, each able to fail with a
storage error message. -/
structure Storage where
  createRun : String → String → String → String → Except String Nat
  getOrCreateBrand : String → Except String Nat
  upsertMention : Nat → Nat → Bool → Nat → List String → List String → Except String Unit

/-- The per-brand storage loop of `checkVisibility` (lines 128-140). -/
def storeLoop (st : Storage) (runId : Nat) (brands : List String)
    (mentions : List BrandMention) : Except String Unit :=
  match brands with
  | [] => .ok ()
  | b :: bs =>
    match st.getOrCreateBrand b with
    | .error e => .error e
    | .ok brandId =>
      let m? := mentions.find? (fun m => lowerL m.brand.data = lowerL b.data)
      let mentioned := match m? with | some m => 0 < m.count | none => false
      let cnt := match m? with | some m => m.count | none => 0
      let ctx := match m? with | some m => m.context | none => []
      let urls := match m? with | some m => m.citationUrls | none => []
      match st.upsertMention runId brandId mentioned cnt ctx urls with
      | .error e => .error e
      | .ok _ => storeLoop st runId bs mentions

/-- The whole try/catch storage block: the run insert then the per-brand
loop.  Returns the run id when the insert succeeded (the JS variable is
assigned before any later failure) together with the error of the first
failing step, if any. -/
def storeResults (st : Storage) (category prompt responseText provider : String)
    (brands : List String) (mentions : List BrandMention) :
    Option Nat × Option String :=
  match st.createRun category prompt responseText provider with
  | .error e => (none, some e)
  | .ok runId =>
    match storeLoop st runId brands mentions with
    | .error e => (some runId, some e)
    | .ok _ => (some runId, none)

/-- The analysis result of `checkVisibility` (the wall-clock `timestamp`
field is omitted from the model; no verified claim concerns it). -/
structure VisibilityResult where
  category : String
  brands : List String
  mentions : List BrandMention
  totalMentions : Nat
  promptRunId : Option Nat
deriving DecidableEq, Repr

/-- The prompt description recorded with the run (not the dispatched
instruction string). -/
def runDescription (category : String) (brands : List String)
    (isCompetitorMode : Bool) (mainBrand : Option String) : String :=
  match isCompetitorMode, mainBrand with
  | true, some mb =>
    "Competitor analysis for " ++ category ++ " - Main brand: " ++ mb
      ++ ", Competitors: " ++ String.intercalate ", " brands
  | _, _ =>
    "Visibility check for " ++ category ++ " - Brands: "
      ++ String.intercalate ", " brands

/-- `checkVisibility`: query the provider, analyse mentions, attach
citations, then store best-effort — a storage error is logged and swallowed,
never surfaced.  A provider error propagates. -/
def checkVisibility (providers : ProviderMap) (st : Storage) (category : String)
    (brands : List String) (provider : String) (isCompetitorMode : Bool)
    (mainBrand : Option String) : Except String VisibilityResult :=
  match queryAI providers provider category brands with
  | .error e => .error e
  | .ok aiResponse =>
    let mentions := (extractBrandMentions aiResponse.text brands).map
      (attachCitations aiResponse.citations)
    let totalMentions := (mentions.map BrandMention.count).sum
    let prompt := runDescription category brands isCompetitorMode mainBrand
    let stored := storeResults st category prompt aiResponse.text provider brands mentions
    .ok { category := category
          brands := brands
          mentions := mentions
          totalMentions := totalMentions
          promptRunId := stored.fst }

/-- The check-visibility route's outcome (part_006): a successful payload, a
400 validation reply, or a 500 reply carrying the error message. -/
inductive RouteResponse where
  | ok (result : VisibilityResult)
  | badRequest (msg : String)
  | serverError (msg : String)
deriving DecidableEq, Repr

/-- The POST handler of `/api/check-visibility`: validation (a missing or
empty category, a missing or empty brand array, competitor mode without a
main brand are rejected), silent provider defaulting, then the service
call; a thrown error becomes a 500 reply with the error message. -/
def routePOST (providers : ProviderMap) (st : Storage) (category : Option String)
    (brands : Option (List String)) (provider : String) (isCompetitorMode : Bool)
    (mainBrand : Option String) : RouteResponse :=
  match category with
  | none => .badRequest "Category is required and must be a string"
  | some cat =>
    if cat = "" then .badRequest "Category is required and must be a string"
    else
      match brands with
      | none => .badRequest "Brands array is required and must not be empty"
      | some bs =>
        if bs = [] then .badRequest "Brands array is required and must not be empty"
        else
          let aiProvider := selectProvider provider
          if isCompetitorMode && (mainBrand = none || mainBrand = some "") then
            .badRequest "Main brand is required when competitor mode is enabled"
          else
            match checkVisibility providers st cat bs aiProvider isCompetitorMode mainBrand with
            | .ok r => .ok r
            | .error e => .serverError e

/-!
### Visibility score (`src/lib/db/models.ts` lines 522-526)

`calculateVisibilityScore` returns `0` for an empty brand list and
otherwise `(mentionedBrands / totalBrands) * 100`; the model gives the
numeric value as a rational (the source applies `toFixed(1)` display
formatting to it before rendering, which does not change which brand sets
reach the extremes considered here).
-/

def calculateVisibilityScore (mentions : List BrandMention) (totalBrands : Nat) : ℚ :=
  if totalBrands = 0 then 0
  else ((mentions.filter (fun m => 0 < m.count)).length : ℚ) / (totalBrands : ℚ) * 100

/-!
### Mention upsert (`src/lib/db/models.ts` `MentionModel.createOrUpdate`,
`src/lib/db/supabase-models.ts` `SupabaseMentionModel.createOrUpdate`)

The mentions table is modelled as a list of rows; both variants perform a
key-based upsert on `(prompt_run_id, brand_id)`: the PostgreSQL variant via
`INSERT ... ON CONFLICT (prompt_run_id, brand_id) DO UPDATE SET ...`, the
Supabase variant via `upsert(..., { onConflict: 'prompt_run_id,brand_id' })`.
A conflicting row has all four value columns overwritten.
-/

structure MentionRow where
  prompt_run_id : Nat
  brand_id : Nat
  mentioned : Bool
  mention_count : Nat
  context : List String
  citation_urls : List String
deriving DecidableEq, Repr

/-- Rows in conflict: same composite key `(prompt_run_id, brand_id)`. -/
def sameKey (runId brandId : Nat) (r : MentionRow) : Bool :=
  r.prompt_run_id = runId && r.brand_id = brandId

/-- `INSERT ... ON CONFLICT (prompt_run_id, brand_id) DO UPDATE SET
mentioned, mention_count, context, citation_urls` (PostgreSQL variant). -/
def pgCreateOrUpdate (table : List MentionRow) (runId brandId : Nat)
    (mentioned : Bool) (mentionCount : Nat) (context citationUrls : List String) :
    List MentionRow :=
  if table.any (sameKey runId brandId) then
    table.map (fun r =>
      if sameKey runId brandId r then
        { r with mentioned := mentioned, mention_count := mentionCount,
                 context := context, citation_urls := citationUrls }
      else r)
  else
    table ++ [{ prompt_run_id := runId, brand_id := brandId, mentioned := mentioned,
                mention_count := mentionCount, context := context,
                citation_urls := citationUrls }]

/-- `supabase.from('mentions').upsert({...}, { onConflict:
'prompt_run_id,brand_id' })` (Supabase variant): the same key-based
update-or-insert semantics. -/
def supabaseCreateOrUpdate (table : List MentionRow) (runId brandId : Nat)
    (mentioned : Bool) (mentionCount : Nat) (context citationUrls : List String) :
    List MentionRow :=
  if table.any (sameKey runId brandId) then
    table.map (fun r =>
      if sameKey runId brandId r then
        { r with mentioned := mentioned, mention_count := mentionCount,
                 context := context, citation_urls := citationUrls }
      else r)
  else
    table ++ [{ prompt_run_id := runId, brand_id := brandId, mentioned := mentioned,
                mention_count := mentionCount, context := context,
                citation_urls := citationUrls }]

/-- The uniqueness invariant of the mentions table: at most one row per
`(prompt_run_id, brand_id)` pair. -/
def KeyUnique (table : List MentionRow) : Prop :=
  ∀ runId brandId : Nat, ((table.filter (sameKey runId brandId)).length ≤ 1)

/-! ### Sample collaborators used by concrete instantiations -/

/-- Did the route reply with a success payload? -/
def RouteResponse.isSuccess : RouteResponse → Bool
  | RouteResponse.ok _ => true
  | _ => false

/-- A provider registry whose only adapter replies with a fixed short text. -/
def tinyProviders : ProviderMap := [("openai", fun _ => Except.ok "Foo wins")]

/-- A provider registry whose only adapter echoes the prompt back. -/
def echoProviders : ProviderMap := [("openai", fun prompt => Except.ok prompt)]

/-- A storage collaborator whose every operation succeeds. -/
def okStorage : Storage :=
  { createRun := fun _ _ _ _ => Except.ok 7
    getOrCreateBrand := fun _ => Except.ok 1
    upsertMention := fun _ _ _ _ _ _ => Except.ok () }

/-- A storage collaborator whose every operation fails. -/
def failingStorage : Storage :=
  { createRun := fun _ _ _ _ => Except.error "db down"
    getOrCreateBrand := fun _ => Except.error "db down"
    upsertMention := fun _ _ _ _ _ _ => Except.error "db down" }

/-! ## Theorems -/

/-- C3: mention counting is case-insensitive and word-boundary delimited —
analyzing the text "Mojolicious is great, unlike Mojo" against the brand
"Mojo" yields count = 1 (only the standalone occurrence), because the
occurrence inside "Mojolicious" is flanked by further word characters. -/
theorem mojo_word_boundary_count :
    (extractBrandMentions "Mojolicious is great, unlike Mojo" ["Mojo"]).map
      BrandMention.count = [1] := by
  decide

/-- C10: a brand with count = 0 can still receive a non-empty context list,
because sentence selection uses plain case-insensitive substring containment
while counting uses word-boundary matching: on the text "Mojolicious" the
brand "Mojo" gets count 0 together with the context sentence
"Mojolicious". -/
theorem context_without_count :
    (extractBrandMentions "Mojolicious" ["Mojo"]).map BrandMention.count = [0] ∧
    (extractBrandMentions "Mojolicious" ["Mojo"]).map BrandMention.context
      = [["Mojolicious"]] := by
  decide

/-- C2: the code does NOT escape regex metacharacters in the brand name —
the pattern is built from the raw lowercased brand, so the dot of
"Notion.so" keeps its wildcard meaning and the analyzer counts a mention in
"Try notionXso today" although the brand string never occurs in the text
(and a brand such as "C++" even makes the regex constructor throw). -/
theorem unescaped_brand_regex_miscounts :
    brandMatchCount "Try notionXso today".data (lowerL "Notion.so".data) = 1 ∧
    containsSub (lowerL "Try notionXso today".data) (lowerL "Notion.so".data) = false := by
  decide

/-- C4 counterexample: the markdown-link phase of `extractCitations` pushes
every captured url without a duplicate check, so a text with two markdown
links to the same url yields a list with a duplicate, refuting the claim
that the extractor never returns duplicates. -/
theorem citations_duplicate_cex :
    extractCitations "[a](http://x) [b](http://x)" = ["http://x", "http://x"] ∧
    ¬ (extractCitations "[a](http://x) [b](http://x)").Nodup := by
  decide

/-- C1 counterexample: the check-visibility route maps the unknown provider
name "perplexity" to the default "openai" and the request then succeeds
against the configured openai adapter — no provider-unavailable failure
occurs, refuting the claim that unknown provider names fail before any
provider call. -/
theorem unknown_provider_silent_fallback_cex :
    "perplexity" ∉ validProviders ∧
    selectProvider "perplexity" = "openai" ∧
    (routePOST tinyProviders okStorage (some "CRM software") (some ["Foo", "Bar"])
      "perplexity" false none).isSuccess = true := by
  refine ⟨by decide, by decide, by decide⟩

/-- C9: competitor mode never reaches the dispatched instruction — the
query path always builds `generateVisibilityPrompt` from the brand list as
given (`checkVisibility` passes only category and brands to `queryAI`, and
`generateCompetitorPrompt` has no caller), so for a competitor-mode request
with main brand "Acme" and brands ["Foo", "Bar"] the dispatched prompt does
not contain "Acme" at all, while the unused competitor template would have
put it first. -/
theorem competitor_prompt_not_dispatched :
    queryAI echoProviders "openai" "CRM software" ["Foo", "Bar"]
      = Except.ok { text := generateVisibilityPrompt "CRM software" ["Foo", "Bar"],
                    citations := extractCitations
                      (generateVisibilityPrompt "CRM software" ["Foo", "Bar"]) } ∧
    containsSub (generateVisibilityPrompt "CRM software" ["Foo", "Bar"]).data
      "Acme".data = false ∧
    containsSub (generateCompetitorPrompt "CRM software" "Acme" ["Foo", "Bar"]).data
      "Brands to consider: Acme, Foo, Bar".data = true := by
  refine ⟨rfl, by decide, by decide⟩

/-- C1 amended: an unknown provider name is silently replaced by the
default "openai" at the route, and only a recognised provider name whose
adapter is not configured fails, inside `queryAI`, with the
provider-unavailable error — before any adapter is consulted. -/
theorem provider_unavailable_amended (ps : ProviderMap) (p category : String)
    (brands : List String) (hvalid : p ∈ validProviders)
    (hconf : ps.lookup p = none) :
    selectProvider p = p ∧
    queryAI ps p category brands = Except.error ("Provider " ++ p
      ++ " is not configured or available. Please check your API keys.") ∧
    ∀ q, q ∉ validProviders → selectProvider q = "openai" := by
  refine ⟨?_, ?_, ?_⟩
  · simp [selectProvider, hvalid]
  · simp [queryAI, hconf]
  · intro q hq
    simp [selectProvider, hq]

/-- C1 amended, witness: the recognised but unconfigured provider "groq"
keeps its name at the route and fails with the provider-unavailable
error in `queryAI` over the empty registry. -/
theorem provider_unavailable_amended_witness :
    selectProvider "groq" = "groq" ∧
    queryAI [] "groq" "CRM software" ["Foo"] = Except.error ("Provider " ++ "groq"
      ++ " is not configured or available. Please check your API keys.") ∧
    ∀ q, q ∉ validProviders → selectProvider q = "openai" :=
  provider_unavailable_amended [] "groq" "CRM software" ["Foo"] (by decide) rfl

/-- C7 counterexample: for the empty tracked-brand list the score is 0, yet
"every brand has count > 0" then holds vacuously, so the score is not 100
exactly when every tracked brand is mentioned. -/
theorem visibility_score_empty_cex :
    calculateVisibilityScore [] 0 ≠ 100 ∧
    calculateVisibilityScore [] 0 = 0 ∧
    ∀ m ∈ ([] : List BrandMention), 0 < m.count := by
  refine ⟨by norm_num [calculateVisibilityScore],
    by norm_num [calculateVisibilityScore], by simp⟩

/-- C7 amended: with one mention record per tracked brand, the score lies
in [0, 100]; it is 0 for the empty brand list, and for a non-empty brand
list it is 100 exactly when every brand has count > 0. -/
theorem visibility_score_amended (mentions : List BrandMention) (totalBrands : Nat)
    (h : totalBrands = mentions.length) :
    0 ≤ calculateVisibilityScore mentions totalBrands ∧
    calculateVisibilityScore mentions totalBrands ≤ 100 ∧
    (totalBrands = 0 → calculateVisibilityScore mentions totalBrands = 0) ∧
    (totalBrands ≠ 0 →
      (calculateVisibilityScore mentions totalBrands = 100 ↔
        ∀ m ∈ mentions, 0 < m.count)) := by
  subst h
  by_cases h0 : mentions.length = 0
  · simp [calculateVisibilityScore, h0, List.length_eq_zero.mp h0]
  · have hlen : ((mentions.filter (fun m => 0 < m.count)).length : ℚ)
        ≤ (mentions.length : ℚ) := by
      exact_mod_cast List.length_filter_le _ mentions
    have hpos : (0 : ℚ) < (mentions.length : ℚ) := by
      exact_mod_cast Nat.pos_of_ne_zero h0
    constructor
    · simp only [calculateVisibilityScore, h0, if_false]
      positivity
    refine ⟨?_, fun hc => absurd hc h0, fun _ => ?_⟩
    · simp only [calculateVisibilityScore, h0, if_false]
      rw [div_mul_eq_mul_div, div_le_iff₀ hpos]
      nlinarith
    · simp only [calculateVisibilityScore, h0, if_false]
      rw [div_mul_eq_mul_div, div_eq_iff (ne_of_gt hpos)]
      constructor
      · intro heq
        have : ((mentions.filter (fun m => 0 < m.count)).length : ℚ)
            = (mentions.length : ℚ) := by linarith
        have hnat : (mentions.filter (fun m => 0 < m.count)).length
            = mentions.length := by exact_mod_cast this
        have := List.filter_length_eq_length.mp hnat
        intro m hm
        simpa using this m hm
      · intro hall
        have hnat : (mentions.filter (fun m => 0 < m.count)).length
            = mentions.length := by
          apply List.filter_length_eq_length.mpr
          intro m hm
          simpa using hall m hm
        rw [hnat]
        ring

/-- C7 amended, witness: a single mentioned brand scores 100, inside the
bounds, with the iff discharged at a concrete list. -/
theorem visibility_score_amended_witness :
    0 ≤ calculateVisibilityScore
      [{ brand := "Foo", count := 1, context := [], citationUrls := [] }] 1 ∧
    calculateVisibilityScore
      [{ brand := "Foo", count := 1, context := [], citationUrls := [] }] 1 ≤ 100 ∧
    ((1 : Nat) = 0 → calculateVisibilityScore
      [{ brand := "Foo", count := 1, context := [], citationUrls := [] }] 1 = 0) ∧
    ((1 : Nat) ≠ 0 →
      (calculateVisibilityScore
        [{ brand := "Foo", count := 1, context := [], citationUrls := [] }] 1 = 100 ↔
        ∀ m ∈ [({ brand := "Foo", count := 1, context := [], citationUrls := [] }
          : BrandMention)], 0 < m.count)) :=
  visibility_score_amended
    [{ brand := "Foo", count := 1, context := [], citationUrls := [] }] 1 rfl

/-- The source's push loop IS the specification-side description: the fold
equals the initial collection followed by `bareExtras`. -/
theorem dedupAppend_eq_bareExtras (us acc : List (List Char)) :
    dedupAppend acc us = acc ++ bareExtras acc us := by
  induction us generalizing acc with
  | nil => simp [dedupAppend, bareExtras]
  | cons u us ih =>
    by_cases hu : u ∈ acc
    · have hstep : dedupAppend acc (u :: us) = dedupAppend acc us := by
        simp [dedupAppend, hu]
      rw [hstep, ih acc]
      simp [bareExtras, hu]
    · have hstep : dedupAppend acc (u :: us) = dedupAppend (acc ++ [u]) us := by
        simp [dedupAppend, hu]
      rw [hstep, ih (acc ++ [u]), List.append_assoc]
      simp [bareExtras, hu]

/-- Completeness of the push loop: the collected urls are exactly the
initial ones plus the incoming ones — nothing is dropped. -/
theorem mem_dedupAppend (us acc : List (List Char)) (u : List Char) :
    u ∈ dedupAppend acc us ↔ u ∈ acc ∨ u ∈ us := by
  induction us generalizing acc with
  | nil => simp [dedupAppend]
  | cons v us ih =>
    by_cases hv : v ∈ acc
    · have hstep : dedupAppend acc (v :: us) = dedupAppend acc us := by
        simp [dedupAppend, hv]
      rw [hstep, ih acc]
      constructor
      · rintro (h | h)
        · exact Or.inl h
        · exact Or.inr (List.mem_cons_of_mem _ h)
      · rintro (h | h)
        · exact Or.inl h
        · rcases List.mem_cons.mp h with rfl | h
          · exact Or.inl hv
          · exact Or.inr h
    · have hstep : dedupAppend acc (v :: us) = dedupAppend (acc ++ [v]) us := by
        simp [dedupAppend, hv]
      rw [hstep, ih (acc ++ [v])]
      simp [List.mem_append, List.mem_cons, or_assoc]

/-- The appended urls keep the scan order: `bareExtras` is a sublist of the
incoming url list. -/
theorem bareExtras_sublist (us acc : List (List Char)) :
    List.Sublist (bareExtras acc us) us := by
  induction us generalizing acc with
  | nil => simp [bareExtras]
  | cons u us ih =>
    by_cases hu : u ∈ acc
    · simpa [bareExtras, hu] using (ih acc).cons u
    · simpa [bareExtras, hu] using (ih (acc ++ [u])).cons₂ u

/-- The appended urls contain no duplicate and nothing already
collected. -/
theorem bareExtras_nodup_disjoint (us acc : List (List Char)) :
    (bareExtras acc us).Nodup ∧ ∀ u ∈ bareExtras acc us, u ∉ acc := by
  induction us generalizing acc with
  | nil => simp [bareExtras]
  | cons u us ih =>
    by_cases hu : u ∈ acc
    · simpa [bareExtras, hu] using ih acc
    · obtain ⟨hn, hd⟩ := ih (acc ++ [u])
      refine ⟨?_, ?_⟩
      · simp only [bareExtras, hu, if_false]
        exact List.nodup_cons.mpr ⟨fun hm => (hd u hm) (by simp), hn⟩
      · intro v hv
        simp only [bareExtras, hu, if_false, List.mem_cons] at hv
        rcases hv with rfl | hv
        · exact hu
        · intro hvacc
          exact hd v hv (by simp [hvacc])

/-- C4 amended: the extractor returns the markdown-link urls in match order
(keeping any duplicates among them), followed by exactly the stripped bare
urls — in scan order, each skipped when already present and appended at
most once, none dropped — and the empty input yields the empty list.  The
unrestricted no-duplicate guarantee of the claim fails (see the
counterexample): only the bare-url phase deduplicates. -/
theorem citations_ordered_amended (text : String) :
    extractCitations "" = [] ∧
    extractCitationsL text.data
      = mdScan text.data.length text.data
        ++ bareExtras (mdScan text.data.length text.data)
            ((urlScan text.data.length text.data).map stripTrailingPunct) ∧
    (∀ u, u ∈ extractCitationsL text.data ↔
      u ∈ mdScan text.data.length text.data
        ∨ u ∈ (urlScan text.data.length text.data).map stripTrailingPunct) ∧
    List.Sublist
      (bareExtras (mdScan text.data.length text.data)
        ((urlScan text.data.length text.data).map stripTrailingPunct))
      ((urlScan text.data.length text.data).map stripTrailingPunct) ∧
    (bareExtras (mdScan text.data.length text.data)
        ((urlScan text.data.length text.data).map stripTrailingPunct)).Nodup ∧
    ∀ u ∈ bareExtras (mdScan text.data.length text.data)
        ((urlScan text.data.length text.data).map stripTrailingPunct),
      u ∉ mdScan text.data.length text.data := by
  refine ⟨rfl, dedupAppend_eq_bareExtras _ _, fun u => mem_dedupAppend _ _ u,
    bareExtras_sublist _ _, (bareExtras_nodup_disjoint _ _).1,
    (bareExtras_nodup_disjoint _ _).2⟩

/-- Every record the mention analyzer produces carries an empty citation
list. -/
theorem extract_citationUrls_empty (text : String) (brands : List String)
    (m : BrandMention) (hm : m ∈ extractBrandMentions text brands) :
    m.citationUrls = [] := by
  simp only [extractBrandMentions, List.mem_map] at hm
  obtain ⟨b, _, rfl⟩ := hm
  rfl

/-- The citation assignment never changes a mention's count. -/
theorem attachCitations_count (citations : List String) (m : BrandMention) :
    (attachCitations citations m).count = m.count := by
  unfold attachCitations
  split <;> rfl

/-- The citation assignment never changes a mention's brand name. -/
theorem attachCitations_brand (citations : List String) (m : BrandMention) :
    (attachCitations citations m).brand = m.brand := by
  unfold attachCitations
  split <;> rfl

/-- An unmentioned brand is left untouched by the citation assignment. -/
theorem attachCitations_zero (citations : List String) (m : BrandMention)
    (hc : m.count = 0) : attachCitations citations m = m := by
  unfold attachCitations
  rw [if_neg (by omega)]

/-- The fallback branch of the citation assignment: a mentioned brand whose
brand filter is empty gets the first two global citations when any
exist. -/
theorem attachCitations_fallback (citations : List String) (m : BrandMention)
    (hc : 0 < m.count) (hf : brandCitationFilter m.brand citations = [])
    (hne : citations ≠ []) :
    (attachCitations citations m).citationUrls = citations.take 2 := by
  unfold attachCitations
  rw [if_pos hc]
  simp [hf, hne]

/-- C5: after citation assignment, a brand with count = 0 keeps an empty
citation list regardless of the global citations, and a mentioned brand
whose brand-specific filter yields nothing receives the first two global
citations whenever the global list is non-empty. -/
theorem mention_citation_assignment (text : String) (brands : List String)
    (citations : List String) (m : BrandMention)
    (hm : m ∈ (extractBrandMentions text brands).map (attachCitations citations)) :
    (m.count = 0 → m.citationUrls = []) ∧
    (0 < m.count → brandCitationFilter m.brand citations = [] → citations ≠ [] →
      m.citationUrls = citations.take 2) := by
  rcases List.mem_map.mp hm with ⟨m0, hm0, rfl⟩
  have h0 : m0.citationUrls = [] := extract_citationUrls_empty text brands m0 hm0
  constructor
  · intro hzero
    rw [attachCitations_count] at hzero
    rw [attachCitations_zero citations m0 hzero]
    exact h0
  · intro hpos hfilter hcit
    rw [attachCitations_count] at hpos
    rw [attachCitations_brand] at hfilter
    exact attachCitations_fallback citations m0 hpos hfilter hcit

/-- The concrete record produced by analysing "Acme is nice" for the brand
"Acme" under the single global citation "http://z". -/
def acmeMention : BrandMention :=
  { brand := "Acme", count := 1, context := ["Acme is nice"],
    citationUrls := ["http://z"] }

/-- C5 witness: the concrete analysis of "Acme is nice" for brand "Acme"
with the single global citation "http://z" (which the brand filter does not
match) receives exactly that fallback citation. -/
theorem mention_citation_assignment_witness :
    (acmeMention.count = 0 → acmeMention.citationUrls = []) ∧
    (0 < acmeMention.count → brandCitationFilter acmeMention.brand ["http://z"] = [] →
      ["http://z"] ≠ ([] : List String) →
      acmeMention.citationUrls = (["http://z"] : List String).take 2) :=
  mention_citation_assignment "Acme is nice" ["Acme"] ["http://z"] acmeMention
    (by decide)

/-- C6: whenever the provider call succeeds, the entry point returns the
in-memory analysis result no matter what the storage collaborator does —
category, mentions and total mentions equal the values computed from the
provider response alone, for every storage implementation, failing ones
included.  The brand list is restricted to the faithfully modelled regex
fragment (`regexSafeBrand`): outside it the source's unescaped `new RegExp`
call itself throws before the persistence block is ever reached (the C2
bug), so the entry point fails there for every storage behavior alike, and
no persistence-caused failure is at stake. -/
theorem storage_failure_result_returned (providers : ProviderMap) (st : Storage)
    (category provider : String) (brands : List String) (isCompetitorMode : Bool)
    (mainBrand : Option String) (resp : AIResponse)
    (hsafe : ∀ b ∈ brands, regexSafeBrand b = true)
    (hq : queryAI providers provider category brands = Except.ok resp) :
    ∃ r, checkVisibility providers st category brands provider isCompetitorMode
        mainBrand = Except.ok r ∧
      r.category = category ∧
      r.mentions = (extractBrandMentions resp.text brands).map
        (attachCitations resp.citations) ∧
      r.totalMentions = (((extractBrandMentions resp.text brands).map
        (attachCitations resp.citations)).map BrandMention.count).sum := by
  refine ⟨VisibilityResult.mk category brands
    ((extractBrandMentions resp.text brands).map (attachCitations resp.citations))
    ((((extractBrandMentions resp.text brands).map
      (attachCitations resp.citations)).map BrandMention.count).sum)
    ((storeResults st category
      (runDescription category brands isCompetitorMode mainBrand) resp.text
      provider brands ((extractBrandMentions resp.text brands).map
        (attachCitations resp.citations))).fst),
    ?_, rfl, rfl, rfl⟩
  unfold checkVisibility
  rw [hq]

/-- C6 witness: with the all-failing storage collaborator and the fixed
reply "Foo wins", the analysis result is still returned with its in-memory
fields. -/
theorem storage_failure_result_returned_witness :
    ∃ r, checkVisibility tinyProviders failingStorage "CRM software" ["Foo"]
        "openai" false none = Except.ok r ∧
      r.category = "CRM software" ∧
      r.mentions = (extractBrandMentions (AIResponse.mk "Foo wins" []).text ["Foo"]).map
        (attachCitations (AIResponse.mk "Foo wins" []).citations) ∧
      r.totalMentions = (((extractBrandMentions (AIResponse.mk "Foo wins" []).text
        ["Foo"]).map (attachCitations (AIResponse.mk "Foo wins" []).citations)).map
        BrandMention.count).sum :=
  storage_failure_result_returned tinyProviders failingStorage "CRM software"
    "openai" ["Foo"] false none (AIResponse.mk "Foo wins" []) (by decide) rfl

/-- The key test holds of a freshly built row exactly for its own key. -/
theorem sameKey_mk_self (runId brandId : Nat) (m : Bool) (c : Nat)
    (ctx u : List String) :
    sameKey runId brandId (MentionRow.mk runId brandId m c ctx u) = true := by
  simp [sameKey]

/-- A key test false of `r` with a different key than the updated one. -/
theorem sameKey_other (runId brandId r' b' : Nat) (r : MentionRow)
    (hk : ¬ (r' = runId ∧ b' = brandId))
    (hr : sameKey runId brandId r = true) : sameKey r' b' r = false := by
  simp only [sameKey, Bool.and_eq_true, decide_eq_true_eq] at hr
  simp only [sameKey, Bool.and_eq_false_iff, decide_eq_false_iff_not]
  by_cases h1 : r.prompt_run_id = r'
  · right
    intro hb
    exact hk ⟨h1.symm.trans hr.1, hb.symm.trans hr.2⟩
  · left
    exact h1

/-- The conflict update of the upsert turns the updated key's filter into
the map of the update over it (the update keeps the key columns). -/
theorem filter_map_upd (runId brandId : Nat) (m : Bool) (c : Nat)
    (ctx u : List String) (t : List MentionRow) :
    (t.map (fun r => if sameKey runId brandId r then
        { r with mentioned := m, mention_count := c, context := ctx, citation_urls := u }
      else r)).filter (sameKey runId brandId)
      = (t.filter (sameKey runId brandId)).map (fun r =>
          { r with mentioned := m, mention_count := c, context := ctx, citation_urls := u }) := by
  induction t with
  | nil => rfl
  | cons x t ih =>
    by_cases hp : sameKey runId brandId x
    · have hp2 : sameKey runId brandId
          { x with mentioned := m, mention_count := c, context := ctx, citation_urls := u } = true := hp
      simp [hp, hp2, ih]
    · simp [hp, ih]

/-- The conflict update of the upsert leaves every other key's filter
unchanged. -/
theorem filter_map_upd_other (runId brandId r' b' : Nat) (m : Bool) (c : Nat)
    (ctx u : List String) (hk : ¬ (r' = runId ∧ b' = brandId))
    (t : List MentionRow) :
    (t.map (fun r => if sameKey runId brandId r then
        { r with mentioned := m, mention_count := c, context := ctx, citation_urls := u }
      else r)).filter (sameKey r' b') = t.filter (sameKey r' b') := by
  induction t with
  | nil => rfl
  | cons x t ih =>
    by_cases hp : sameKey runId brandId x
    · have hq : sameKey r' b' x = false := sameKey_other runId brandId r' b' x hk hp
      have hq2 : sameKey r' b'
          { x with mentioned := m, mention_count := c, context := ctx, citation_urls := u } = false := hq
      simp [hp, hq, hq2, ih]
    · by_cases hqx : sameKey r' b' x
      · simp [hp, hqx, ih]
      · simp [hp, hqx, ih]

/-- The key-based upsert preserves the at-most-one-row-per-key
invariant. -/
theorem pg_upsert_keyUnique (t : List MentionRow) (h : KeyUnique t)
    (runId brandId : Nat) (m : Bool) (c : Nat) (ctx u : List String) :
    KeyUnique (pgCreateOrUpdate t runId brandId m c ctx u) := by
  intro r' b'
  unfold pgCreateOrUpdate
  by_cases hany : t.any (sameKey runId brandId)
  · rw [if_pos hany]
    by_cases hk : r' = runId ∧ b' = brandId
    · obtain ⟨rfl, rfl⟩ := hk
      rw [filter_map_upd r' b' m c ctx u t]
      calc ((t.filter (sameKey r' b')).map _).length
          = (t.filter (sameKey r' b')).length := List.length_map _ _
        _ ≤ 1 := h r' b'
    · rw [filter_map_upd_other runId brandId r' b' m c ctx u hk t]
      exact h r' b'
  · rw [if_neg hany]
    rw [List.filter_append]
    have hnone : ∀ a ∈ t, ¬ sameKey runId brandId a = true := by
      intro a ha hpa
      exact hany (List.any_eq_true.mpr ⟨a, ha, hpa⟩)
    by_cases hk : r' = runId ∧ b' = brandId
    · obtain ⟨rfl, rfl⟩ := hk
      have hnil : t.filter (sameKey r' b') = [] := List.filter_eq_nil_iff.mpr hnone
      rw [hnil]
      simp [sameKey]
    · have hnew : sameKey r' b' (MentionRow.mk runId brandId m c ctx u) = false :=
        sameKey_other runId brandId r' b' _ hk (sameKey_mk_self runId brandId m c ctx u)
      simp only [List.filter_cons, hnew, Bool.false_eq_true, if_false,
        List.filter_nil, List.append_nil]
      exact h r' b'

/-- After an upsert on a key-unique table, the key's filter is exactly the
upserted row. -/
theorem pg_upsert_filter_eq (t : List MentionRow) (h : KeyUnique t)
    (runId brandId : Nat) (m : Bool) (c : Nat) (ctx u : List String) :
    (pgCreateOrUpdate t runId brandId m c ctx u).filter (sameKey runId brandId)
      = [MentionRow.mk runId brandId m c ctx u] := by
  unfold pgCreateOrUpdate
  by_cases hany : t.any (sameKey runId brandId)
  · rw [if_pos hany]
    rw [filter_map_upd runId brandId m c ctx u t]
    have hge : 1 ≤ (t.filter (sameKey runId brandId)).length := by
      obtain ⟨x, hx, hpx⟩ := List.any_eq_true.mp hany
      exact List.length_pos_of_mem (List.mem_filter.mpr ⟨hx, hpx⟩)
    have hone : (t.filter (sameKey runId brandId)).length = 1 :=
      le_antisymm (h runId brandId) hge
    obtain ⟨x, hx⟩ := List.length_eq_one.mp hone
    rw [hx]
    have hpx : sameKey runId brandId x = true := by
      have hmem : x ∈ t.filter (sameKey runId brandId) := by
        rw [hx]
        exact List.mem_singleton_self x
      exact (List.mem_filter.mp hmem).2
    simp only [sameKey, Bool.and_eq_true, decide_eq_true_eq] at hpx
    simp [hpx.1, hpx.2]
  · rw [if_neg hany]
    rw [List.filter_append]
    have hnil : t.filter (sameKey runId brandId) = [] := by
      rw [List.filter_eq_nil_iff]
      intro a ha hpa
      exact hany (List.any_eq_true.mpr ⟨a, ha, hpa⟩)
    rw [hnil]
    simp [sameKey_mk_self]

/-- The Supabase upsert and the PostgreSQL upsert have the same key-based
update-or-insert semantics. -/
theorem supabase_eq_pg (t : List MentionRow) (runId brandId : Nat) (m : Bool)
    (c : Nat) (ctx u : List String) :
    supabaseCreateOrUpdate t runId brandId m c ctx u
      = pgCreateOrUpdate t runId brandId m c ctx u := rfl

/-- C8: on a table satisfying the at-most-one-row-per-key invariant,
calling the mention upsert twice for the same (runId, brandId) with
different values keeps the invariant and leaves exactly one row for that
key, carrying the second call's values — in both the PostgreSQL and the
Supabase variant. -/
theorem mention_upsert_last_write_wins (t : List MentionRow) (h : KeyUnique t)
    (runId brandId : Nat) (m1 m2 : Bool) (c1 c2 : Nat)
    (ctx1 ctx2 u1 u2 : List String) :
    KeyUnique (pgCreateOrUpdate (pgCreateOrUpdate t runId brandId m1 c1 ctx1 u1)
      runId brandId m2 c2 ctx2 u2) ∧
    (pgCreateOrUpdate (pgCreateOrUpdate t runId brandId m1 c1 ctx1 u1)
        runId brandId m2 c2 ctx2 u2).filter (sameKey runId brandId)
      = [MentionRow.mk runId brandId m2 c2 ctx2 u2] ∧
    KeyUnique (supabaseCreateOrUpdate
      (supabaseCreateOrUpdate t runId brandId m1 c1 ctx1 u1)
      runId brandId m2 c2 ctx2 u2) ∧
    (supabaseCreateOrUpdate (supabaseCreateOrUpdate t runId brandId m1 c1 ctx1 u1)
        runId brandId m2 c2 ctx2 u2).filter (sameKey runId brandId)
      = [MentionRow.mk runId brandId m2 c2 ctx2 u2] := by
  have h1 : KeyUnique (pgCreateOrUpdate t runId brandId m1 c1 ctx1 u1) :=
    pg_upsert_keyUnique t h runId brandId m1 c1 ctx1 u1
  refine ⟨pg_upsert_keyUnique _ h1 runId brandId m2 c2 ctx2 u2,
    pg_upsert_filter_eq _ h1 runId brandId m2 c2 ctx2 u2, ?_, ?_⟩
  · rw [supabase_eq_pg, supabase_eq_pg]
    exact pg_upsert_keyUnique _ h1 runId brandId m2 c2 ctx2 u2
  · rw [supabase_eq_pg, supabase_eq_pg]
    exact pg_upsert_filter_eq _ h1 runId brandId m2 c2 ctx2 u2

/-- C8 witness: two upserts for key (3, 4) on the empty table leave exactly
the second row, in both variants. -/
theorem mention_upsert_last_write_wins_witness :
    KeyUnique (pgCreateOrUpdate (pgCreateOrUpdate [] 3 4 false 0 [] [])
      3 4 true 2 ["s"] ["http://z"]) ∧
    (pgCreateOrUpdate (pgCreateOrUpdate [] 3 4 false 0 [] [])
        3 4 true 2 ["s"] ["http://z"]).filter (sameKey 3 4)
      = [MentionRow.mk 3 4 true 2 ["s"] ["http://z"]] ∧
    KeyUnique (supabaseCreateOrUpdate (supabaseCreateOrUpdate [] 3 4 false 0 [] [])
      3 4 true 2 ["s"] ["http://z"]) ∧
    (supabaseCreateOrUpdate (supabaseCreateOrUpdate [] 3 4 false 0 [] [])
        3 4 true 2 ["s"] ["http://z"]).filter (sameKey 3 4)
      = [MentionRow.mk 3 4 true 2 ["s"] ["http://z"]] :=
  mention_upsert_last_write_wins [] (by intro r b; simp) 3 4 false true 0 2
    [] ["s"] [] ["http://z"]

end AIVisibility
